import Mathlib

/-!
Shallow embedding of the ECDS Shock Index scoring engine
(`src/ecds_shock_index/__init__.py`).

Real numbers of the Python source are modelled as rationals (ℚ), so all
arithmetic is exact and every definition is executable.  Functions that can
raise `ValueError` in Python are modelled as `Except String`; the pandas
`NaN` produced by an empty `mean`/`max` reduction is modelled as `none` of
an `Option ℚ`.  Python's `round(x, 4)` (banker's rounding to four decimal
places) is modelled exactly by `pyRound` / `round4` below.
-/

namespace EcdsShockIndex

/-- Embeds `_clip_01` (source lines 27-29): clamp a value to [0, 1]. -/
def clip01 (value : ℚ) : ℚ :=
  max 0 (min 1 value)

/-- Embeds `RISK_TIERS` (source lines 19-24): tier name with its
half-open interval `[lo, hi)`, in the dict's insertion order. -/
def RISK_TIERS : List (String × ℚ × ℚ) :=
  [("low", (0, 25/100)),
   ("moderate", (25/100, 50/100)),
   ("high", (50/100, 75/100)),
   ("critical", (75/100, 101/100))]

/-- Embeds `ccs_score` (source lines 37-42): average of the two
completeness signals, clamped. -/
def ccs_score (completeness_rate mapping_coverage : ℚ) : ℚ :=
  clip01 ((completeness_rate + mapping_coverage) / 2)

/-- Embeds `eav_score` (source lines 45-54): deviation of the variance
ratio from a positive baseline, centred at 1/2, clamped.  Raises
(`Except.error`) when `baseline ≤ 0`. -/
def eav_score (variance_rat : ℚ) (baseline : ℚ := 1) : Except String ℚ :=
  if baseline ≤ 0 then .error "baseline must be greater than zero"
  else .ok (clip01 (1/2 + ((variance_rat / baseline) - 1) / 2))

/-- Embeds `cpr_score` (source lines 57-65): absolute cutpoint shift
relative to `max_shift`, clamped.  Raises when `max_shift ≤ 0`. -/
def cpr_score (cutpoint_shift : ℚ) (max_shift : ℚ := 1/2) : Except String ℚ :=
  if max_shift ≤ 0 then .error "max_shift must be greater than zero"
  else .ok (clip01 (|cutpoint_shift| / max_shift))

/-- Embeds `wm_score` (source lines 68-72): measure weight relative to
`max_weight`, clamped.  Raises when `max_weight ≤ 0`. -/
def wm_score (measure_weight : ℚ) (max_weight : ℚ := 5) : Except String ℚ :=
  if max_weight ≤ 0 then .error "max_weight must be greater than zero"
  else .ok (clip01 (measure_weight / max_weight))

/-- Embeds `classify_risk` (source lines 80-93): clamp the score, then
scan `RISK_TIERS` in order for the first `lo ≤ score < hi` match, falling
back to `"critical"`. -/
def classify_risk (score : ℚ) : String :=
  let s := clip01 score
  ((RISK_TIERS.find? (fun t => decide (t.2.1 ≤ s ∧ s < t.2.2))).map
    (fun t => t.1)).getD "critical"

/-- Embeds the `ShockIndexCalculator` dataclass fields (source lines
112-115) with their default weights. -/
structure ShockIndexCalculator where
  alpha_ccs : ℚ := 35/100
  beta_eav : ℚ := 25/100
  gamma_cpr : ℚ := 20/100
  delta_wm : ℚ := 20/100
deriving Repr, DecidableEq

/-- Embeds dataclass construction followed by `__post_init__` (source
lines 117-123): reject a negative weight, then reject a weight sum more
than 1e-6 away from 1; otherwise the fully constructed instance. -/
def ShockIndexCalculator.make (alpha beta gamma delta : ℚ) :
    Except String ShockIndexCalculator :=
  let weights := [alpha, beta, gamma, delta]
  if weights.any (fun w => decide (w < 0)) then
    .error "All weights must be non-negative"
  else if 1/1000000 < |weights.sum - 1| then
    .error "Weights must sum to 1.0"
  else
    .ok ⟨alpha, beta, gamma, delta⟩

/-- Embeds `ShockIndexCalculator.calculate` (source lines 125-133):
clamp each factor input, take the weighted sum, clamp the total. -/
def ShockIndexCalculator.calculate (c : ShockIndexCalculator)
    (ccs eav cpr wm : ℚ) : ℚ :=
  clip01 (c.alpha_ccs * clip01 ccs
    + c.beta_eav * clip01 eav
    + c.gamma_cpr * clip01 cpr
    + c.delta_wm * clip01 wm)

/-- Formula of §4.3 of the spec, written from the spec's words for the
refinement claim about `calculate`: each input independently clamped to
[0,1], multiplied by its weight, summed, total re-clamped to [0,1]. -/
def calculate_specFormula (alpha beta gamma delta ccs eav cpr wm : ℚ) : ℚ :=
  clip01 (alpha * clip01 ccs + beta * clip01 eav
    + gamma * clip01 cpr + delta * clip01 wm)

/-- A row of the input DataFrame of `score_dataframe`: the five required
numeric columns (source lines 154-160).  `variance_rat` embeds the
source's variance-ratio column. -/
structure MeasureRecord where
  completeness_rate : ℚ
  mapping_coverage : ℚ
  variance_rat : ℚ
  cutpoint_shift : ℚ
  measure_weight : ℚ
deriving Repr, DecidableEq

/-- A row of the output DataFrame of `score_dataframe`: the original row
(`orig`, all input columns untouched) plus the six appended columns
(source lines 165-182). -/
structure ScoredRecord where
  orig : MeasureRecord
  ccs : ℚ
  eav : ℚ
  cpr : ℚ
  wm : ℚ
  shock_index : ℚ
  risk_tier : String
deriving Repr, DecidableEq

/-- Embeds `ShockIndexCalculator.score_dataframe` (source lines 139-182)
row-wise: for each row compute `ccs`, `eav` (default baseline 1),
`cpr` (with `max_shift`), `wm` (with `max_weight`), then `shock_index`
via `calculate` and `risk_tier` via `classify_risk`, appending all six
to the row.  The column-wise pandas evaluation is equivalent row-wise
because the only possible errors depend on the uniform parameters, not
on row values.  The typed record makes the missing-column check
(source lines 161-163) vacuous. -/
def ShockIndexCalculator.score_dataframe (c : ShockIndexCalculator)
    (rows : List MeasureRecord) (max_shift : ℚ := 1/2) (max_weight : ℚ := 5) :
    Except String (List ScoredRecord) :=
  rows.mapM (fun r => do
    let ccs := ccs_score r.completeness_rate r.mapping_coverage
    let eav ← eav_score r.variance_rat
    let cpr ← cpr_score r.cutpoint_shift max_shift
    let wm ← wm_score r.measure_weight max_weight
    let si := c.calculate ccs eav cpr wm
    pure { orig := r, ccs := ccs, eav := eav, cpr := cpr, wm := wm,
           shock_index := si, risk_tier := classify_risk si })

/-- Python 3 `round` to the nearest integer with ties to the even
integer (banker's rounding), as used by `round(x, 4)`. -/
def pyRound (q : ℚ) : ℤ :=
  if Int.fract q < 1/2 then ⌊q⌋
  else if 1/2 < Int.fract q then ⌊q⌋ + 1
  else if ⌊q⌋ % 2 = 0 then ⌊q⌋ else ⌊q⌋ + 1

/-- `round(x, 4)` of the source: round to four decimal places. -/
def round4 (q : ℚ) : ℚ :=
  (pyRound (q * 10000) : ℚ) / 10000

/-- Result dict of `aggregate_contract` (source lines 210-216).
`mean_shock_index` and `max_shock_index` are `none` exactly when pandas
would produce `NaN` (empty reduction). -/
structure ContractSummary where
  weighted_shock_index : ℚ
  mean_shock_index : Option ℚ
  max_shock_index : Option ℚ
  measure_count : ℕ
  risk_tier : String
deriving Repr, DecidableEq

/-- Embeds `ShockIndexCalculator.aggregate_contract` (source lines
184-216).  `self` is unused by the source body.  The typed record makes
the missing-column check (lines 197-200) vacuous.  All float outputs are
rounded to 4 decimal places; `risk_tier` classifies the unrounded
weighted index, as in the source. -/
def ShockIndexCalculator.aggregate_contract (scored : List ScoredRecord) :
    ContractSummary :=
  let total_weight := (scored.map (fun r => r.orig.measure_weight)).sum
  let weighted :=
    if total_weight = 0 then 0
    else (scored.map (fun r => r.shock_index * r.orig.measure_weight)).sum
      / total_weight
  { weighted_shock_index := round4 weighted
    mean_shock_index :=
      if scored.length = 0 then none
      else some (round4 ((scored.map (fun r => r.shock_index)).sum
        / (scored.length : ℚ)))
    max_shock_index := ((scored.map (fun r => r.shock_index)).max?).map round4
    measure_count := scored.length
    risk_tier := classify_risk weighted }

/-- The scored row produced by `score_dataframe` for one input row under
positive `max_shift` and `max_weight` (the payloads of the `.ok` results
of the three parameterised normalizers), used to state what the batch
scorer returns when it succeeds. -/
def score_row (c : ShockIndexCalculator) (max_shift max_weight : ℚ)
    (r : MeasureRecord) : ScoredRecord :=
  let ccs := ccs_score r.completeness_rate r.mapping_coverage
  let eav := clip01 (1/2 + ((r.variance_rat / 1) - 1) / 2)
  let cpr := clip01 (|r.cutpoint_shift| / max_shift)
  let wm := clip01 (r.measure_weight / max_weight)
  let si := c.calculate ccs eav cpr wm
  { orig := r, ccs := ccs, eav := eav, cpr := cpr, wm := wm,
    shock_index := si, risk_tier := classify_risk si }

/-! ## Helper lemmas -/

theorem clip01_nonneg (x : ℚ) : 0 ≤ clip01 x := le_max_left 0 _

theorem clip01_le_one (x : ℚ) : clip01 x ≤ 1 :=
  max_le (by norm_num) (min_le_left 1 x)

theorem clip01_mono {x y : ℚ} (h : x ≤ y) : clip01 x ≤ clip01 y :=
  max_le_max le_rfl (min_le_min le_rfl h)

theorem classify_risk_eq (s : ℚ) :
    classify_risk s =
      if clip01 s < 25/100 then "low"
      else if clip01 s < 50/100 then "moderate"
      else if clip01 s < 75/100 then "high"
      else "critical" := by
  have h0 : 0 ≤ clip01 s := clip01_nonneg s
  have h1 : clip01 s ≤ 1 := clip01_le_one s
  simp only [classify_risk, RISK_TIERS]
  by_cases hA : clip01 s < 25/100
  · rw [List.find?_cons_of_pos _ (by simp only [decide_eq_true_eq]; exact ⟨h0, hA⟩)]
    simp [hA]
  · rw [List.find?_cons_of_neg _ (by simp only [decide_eq_true_eq]; exact fun h => hA h.2)]
    by_cases hB : clip01 s < 50/100
    · rw [List.find?_cons_of_pos _
        (by simp only [decide_eq_true_eq]; exact ⟨le_of_not_lt hA, hB⟩)]
      simp [hA, hB]
    · rw [List.find?_cons_of_neg _
        (by simp only [decide_eq_true_eq]; exact fun h => hB h.2)]
      by_cases hC : clip01 s < 75/100
      · rw [List.find?_cons_of_pos _
          (by simp only [decide_eq_true_eq]; exact ⟨le_of_not_lt hB, hC⟩)]
        simp [hA, hB, hC]
      · rw [List.find?_cons_of_neg _
          (by simp only [decide_eq_true_eq]; exact fun h => hC h.2)]
        rw [List.find?_cons_of_pos _
          (by simp only [decide_eq_true_eq]; exact ⟨le_of_not_lt hC, by linarith⟩)]
        simp [hA, hB, hC]

theorem eav_score_pos (v b : ℚ) (hb : 0 < b) :
    eav_score v b = .ok (clip01 (1/2 + ((v / b) - 1) / 2)) := by
  rw [eav_score, if_neg (not_le.mpr hb)]

theorem cpr_score_pos (v m : ℚ) (hm : 0 < m) :
    cpr_score v m = .ok (clip01 (|v| / m)) := by
  rw [cpr_score, if_neg (not_le.mpr hm)]

theorem wm_score_pos (v m : ℚ) (hm : 0 < m) :
    wm_score v m = .ok (clip01 (v / m)) := by
  rw [wm_score, if_neg (not_le.mpr hm)]

theorem score_dataframe_ok (c : ShockIndexCalculator) (max_shift max_weight : ℚ)
    (hms : 0 < max_shift) (hmw : 0 < max_weight) (rows : List MeasureRecord) :
    c.score_dataframe rows max_shift max_weight =
      .ok (rows.map (score_row c max_shift max_weight)) := by
  induction rows with
  | nil => rfl
  | cons r rest ih =>
    rw [ShockIndexCalculator.score_dataframe, List.mapM_cons]
    rw [ShockIndexCalculator.score_dataframe] at ih
    simp only [eav_score_pos _ 1 (by norm_num), cpr_score_pos _ _ hms,
      wm_score_pos _ _ hmw] at ih ⊢
    rw [ih]
    rfl

theorem bind_eq_ok_iff {α β : Type} (m : Except String α)
    (f : α → Except String β) (b : β) :
    (m >>= f) = .ok b ↔ ∃ a, m = .ok a ∧ f a = .ok b := by
  cases m with
  | error e =>
    constructor
    · intro h; exact absurd h (by simp [Bind.bind, Except.bind])
    · rintro ⟨a, ha, -⟩; exact absurd ha (by simp)
  | ok a =>
    constructor
    · intro h; exact ⟨a, rfl, h⟩
    · rintro ⟨a2, ha, hf⟩
      obtain rfl : a = a2 := by simpa using ha
      exact hf

theorem pure_eq_ok {α : Type} (a : α) : (pure a : Except String α) = .ok a := rfl

theorem make_eq_ok_iff (a b g d : ℚ) (c : ShockIndexCalculator) :
    ShockIndexCalculator.make a b g d = .ok c ↔
      (0 ≤ a ∧ 0 ≤ b ∧ 0 ≤ g ∧ 0 ≤ d ∧ |a + b + g + d - 1| ≤ 1/1000000 ∧
        c = ⟨a, b, g, d⟩) := by
  rw [ShockIndexCalculator.make]
  simp only [List.any_cons, List.any_nil, Bool.or_false, Bool.or_eq_true,
    decide_eq_true_eq, List.sum_cons, List.sum_nil, add_zero]
  split_ifs with h1 h2
  · simp only [reduceCtorEq, false_iff]
    rintro ⟨ha, hb, hg, hd, -, -⟩
    rcases h1 with h | h | h | h <;> linarith
  · simp only [reduceCtorEq, false_iff]
    rintro ⟨-, -, -, -, hs, -⟩
    have he : a + (b + (g + d)) = a + b + g + d := by ring
    rw [he] at h2
    exact absurd h2 (not_lt.mpr hs)
  · push_neg at h1
    have he : a + (b + (g + d)) = a + b + g + d := by ring
    rw [he] at h2
    simp only [Except.ok.injEq]
    constructor
    · intro h
      exact ⟨h1.1, h1.2.1, h1.2.2.1, h1.2.2.2, not_lt.mp h2, h.symm⟩
    · rintro ⟨-, -, -, -, -, rfl⟩
      rfl

theorem isOk_error {α : Type} (e : String) :
    (Except.error e : Except String α).isOk = false := rfl

theorem isOk_ok {α : Type} (a : α) :
    (Except.ok a : Except String α).isOk = true := rfl

theorem make_isOk_iff (a b g d : ℚ) :
    (ShockIndexCalculator.make a b g d).isOk = true ↔
      (0 ≤ a ∧ 0 ≤ b ∧ 0 ≤ g ∧ 0 ≤ d ∧ |a + b + g + d - 1| ≤ 1/1000000) := by
  constructor
  · intro h
    cases hm : ShockIndexCalculator.make a b g d with
    | error e => rw [hm, isOk_error] at h; cases h
    | ok c =>
      have := (make_eq_ok_iff a b g d c).mp hm
      exact ⟨this.1, this.2.1, this.2.2.1, this.2.2.2.1, this.2.2.2.2.1⟩
  · intro h
    rw [(make_eq_ok_iff a b g d ⟨a, b, g, d⟩).mpr
      ⟨h.1, h.2.1, h.2.2.1, h.2.2.2.1, h.2.2.2.2, rfl⟩, isOk_ok]

theorem pyRound_sub_abs_le (q : ℚ) : |(pyRound q : ℚ) - q| ≤ 1/2 := by
  have hf0 : 0 ≤ Int.fract q := Int.fract_nonneg q
  have hf1 : Int.fract q < 1 := Int.fract_lt_one q
  have hfl : (⌊q⌋ : ℚ) = q - Int.fract q := by rw [Int.self_sub_fract]
  rw [pyRound]
  split_ifs with h1 h2 h3 <;> rw [abs_le] <;> constructor <;> push_cast <;> linarith

theorem round4_sub_abs_le (q : ℚ) : |round4 q - q| ≤ 1/20000 := by
  have h := pyRound_sub_abs_le (q * 10000)
  rw [round4]
  have e : (pyRound (q * 10000) : ℚ) / 10000 - q =
      ((pyRound (q * 10000) : ℚ) - q * 10000) / 10000 := by ring
  rw [e, abs_div, abs_of_pos (by norm_num : (0:ℚ) < 10000)]
  calc |(pyRound (q * 10000) : ℚ) - q * 10000| / 10000
      ≤ (1/2) / 10000 :=
        (div_le_div_iff_of_pos_right (by norm_num : (0:ℚ) < 10000)).mpr h
    _ = 1/20000 := by norm_num

theorem round4_zero : round4 0 = 0 := by
  norm_num [round4, pyRound, Int.fract]

theorem calculate_nonneg (c : ShockIndexCalculator) (a b d e : ℚ) :
    0 ≤ c.calculate a b d e := clip01_nonneg _

theorem calculate_le_one (c : ShockIndexCalculator) (a b d e : ℚ) :
    c.calculate a b d e ≤ 1 := clip01_le_one _

theorem score_dataframe_mem_bounds (c : ShockIndexCalculator) (ms mw : ℚ) :
    ∀ (rows : List MeasureRecord) (out : List ScoredRecord),
      c.score_dataframe rows ms mw = .ok out →
      ∀ sr ∈ out, 0 ≤ sr.shock_index ∧ sr.shock_index ≤ 1 := by
  intro rows
  induction rows with
  | nil =>
    intro out h
    rw [ShockIndexCalculator.score_dataframe, List.mapM_nil, pure_eq_ok] at h
    obtain rfl : ([] : List ScoredRecord) = out := by simpa using h
    intro sr hsr
    cases hsr
  | cons r rest ih =>
    intro out h
    rw [ShockIndexCalculator.score_dataframe, List.mapM_cons] at h
    rw [ShockIndexCalculator.score_dataframe] at ih
    simp only [bind_eq_ok_iff, pure_eq_ok, Except.ok.injEq] at h
    obtain ⟨sr0, ⟨eav, -, cpr, -, wm, -, hsr0⟩, tail, htail, hout⟩ := h
    subst hout
    intro sr hsr
    rcases List.mem_cons.mp hsr with rfl | hmem
    · subst hsr0
      exact ⟨calculate_nonneg _ _ _ _ _, calculate_le_one _ _ _ _ _⟩
    · exact ih tail htail sr hmem

/-! ## Claims -/

/-- C1: For every real-valued input (including negative and out-of-range
values), the output of each of the four factor normalizers — whenever a
parameterised normalizer returns a value at all — the output of
`ShockIndexCalculator.calculate`, and every derived `shock_index` value
produced by `score_dataframe` lie in the closed interval [0, 1]. -/
theorem spec_C1 :
    (∀ a b : ℚ, 0 ≤ ccs_score a b ∧ ccs_score a b ≤ 1) ∧
    (∀ v b q : ℚ, eav_score v b = .ok q → 0 ≤ q ∧ q ≤ 1) ∧
    (∀ v m q : ℚ, cpr_score v m = .ok q → 0 ≤ q ∧ q ≤ 1) ∧
    (∀ v m q : ℚ, wm_score v m = .ok q → 0 ≤ q ∧ q ≤ 1) ∧
    (∀ (c : ShockIndexCalculator) (ccs eav cpr wm : ℚ),
      0 ≤ c.calculate ccs eav cpr wm ∧ c.calculate ccs eav cpr wm ≤ 1) ∧
    (∀ (c : ShockIndexCalculator) (ms mw : ℚ) (rows : List MeasureRecord)
      (out : List ScoredRecord), c.score_dataframe rows ms mw = .ok out →
      ∀ sr ∈ out, 0 ≤ sr.shock_index ∧ sr.shock_index ≤ 1) := by
  refine ⟨fun a b => ⟨clip01_nonneg _, clip01_le_one _⟩, ?_, ?_, ?_,
    fun c ccs eav cpr wm =>
      ⟨calculate_nonneg _ _ _ _ _, calculate_le_one _ _ _ _ _⟩,
    fun c ms mw rows out h => score_dataframe_mem_bounds c ms mw rows out h⟩
  · intro v b q h
    rw [eav_score] at h
    split_ifs at h
    obtain rfl : q = clip01 (1/2 + ((v / b) - 1) / 2) := by simpa using h.symm
    exact ⟨clip01_nonneg _, clip01_le_one _⟩
  · intro v m q h
    rw [cpr_score] at h
    split_ifs at h
    obtain rfl : q = clip01 (|v| / m) := by simpa using h.symm
    exact ⟨clip01_nonneg _, clip01_le_one _⟩
  · intro v m q h
    rw [wm_score] at h
    split_ifs at h
    obtain rfl : q = clip01 (v / m) := by simpa using h.symm
    exact ⟨clip01_nonneg _, clip01_le_one _⟩

/-- Witness for C1: `eav_score 3 1` succeeds with value 1, which the
theorem then bounds inside [0, 1]. -/
theorem spec_C1_witness :
    eav_score 3 1 = .ok 1 ∧ (0 ≤ (1:ℚ) ∧ (1:ℚ) ≤ 1) :=
  ⟨by norm_num [eav_score, clip01, min_def, max_def],
   spec_C1.2.1 3 1 1 (by norm_num [eav_score, clip01, min_def, max_def])⟩

/-- C2: For a successfully constructed calculator, `calculate` equals the
clamp to [0,1] of the sum of each weight times the clamp to [0,1] of its
input (so it is total over all rational inputs), and with weights
(0.4, 0.2, 0.2, 0.2) we get `calculate 0.8 0.5 0.5 0.5 = 0.62`. -/
theorem spec_C2 :
    (∀ (c : ShockIndexCalculator) (ccs eav cpr wm : ℚ),
      c.calculate ccs eav cpr wm =
        calculate_specFormula c.alpha_ccs c.beta_eav c.gamma_cpr c.delta_wm
          ccs eav cpr wm) ∧
    (∀ c : ShockIndexCalculator,
      ShockIndexCalculator.make (4/10) (2/10) (2/10) (2/10) = .ok c →
      c.calculate (8/10) (5/10) (5/10) (5/10) = 62/100) := by
  refine ⟨fun c ccs eav cpr wm => rfl, ?_⟩
  intro c h
  obtain ⟨-, -, -, -, -, rfl⟩ :=
    (make_eq_ok_iff (4/10) (2/10) (2/10) (2/10) c).mp h
  norm_num [ShockIndexCalculator.calculate, clip01, min_def, max_def]

/-- Witness for C2: the weight set (0.4, 0.2, 0.2, 0.2) is accepted at
construction and the calculator it yields returns 0.62 on the spec's
example inputs. -/
theorem spec_C2_witness :
    ShockIndexCalculator.make (4/10) (2/10) (2/10) (2/10) =
      .ok ⟨4/10, 2/10, 2/10, 2/10⟩ ∧
    (⟨4/10, 2/10, 2/10, 2/10⟩ : ShockIndexCalculator).calculate
      (8/10) (5/10) (5/10) (5/10) = 62/100 := by
  have hmake : ShockIndexCalculator.make (4/10) (2/10) (2/10) (2/10) =
      .ok ⟨4/10, 2/10, 2/10, 2/10⟩ :=
    (make_eq_ok_iff _ _ _ _ _).mpr (by norm_num)
  exact ⟨hmake, spec_C2.2 _ hmake⟩

/-- C3: `classify_risk` partitions [0,1] into low [0,0.25),
moderate [0.25,0.50), high [0.50,0.75), critical [0.75,1] after clamping
out-of-range inputs, each boundary belonging to the tier whose lower
bound it equals; with the spec's six concrete boundary checks. -/
theorem spec_C3 :
    (∀ s : ℚ,
      (classify_risk s = "low" ↔ clip01 s < 25/100) ∧
      (classify_risk s = "moderate" ↔ 25/100 ≤ clip01 s ∧ clip01 s < 50/100) ∧
      (classify_risk s = "high" ↔ 50/100 ≤ clip01 s ∧ clip01 s < 75/100) ∧
      (classify_risk s = "critical" ↔ 75/100 ≤ clip01 s)) ∧
    classify_risk (25/100) = "moderate" ∧ classify_risk (2499/10000) = "low" ∧
    classify_risk (75/100) = "critical" ∧ classify_risk (7499/10000) = "high" ∧
    classify_risk (-1) = "low" ∧ classify_risk 2 = "critical" := by
  constructor
  · intro s
    rw [classify_risk_eq s]
    split_ifs with h1 h2 h3 <;>
      refine ⟨?_, ?_, ?_, ?_⟩ <;> simp_all <;>
      first | linarith | (intro; linarith)
  · refine ⟨?_, ?_, ?_, ?_, ?_, ?_⟩ <;>
      rw [classify_risk_eq] <;> norm_num [clip01, min_def, max_def]

/-- C4: constructing a `ShockIndexCalculator` succeeds if and only if all
four weights are non-negative and their sum deviates from 1 by at most
1e-6; a successful construction yields exactly the calculator holding the
given weights (no other observable state). -/
theorem spec_C4 (a b g d : ℚ) :
    ((ShockIndexCalculator.make a b g d).isOk = true ↔
      (0 ≤ a ∧ 0 ≤ b ∧ 0 ≤ g ∧ 0 ≤ d ∧ |a + b + g + d - 1| ≤ 1/1000000)) ∧
    (∀ c, ShockIndexCalculator.make a b g d = .ok c → c = ⟨a, b, g, d⟩) :=
  ⟨make_isOk_iff a b g d,
   fun c h => ((make_eq_ok_iff a b g d c).mp h).2.2.2.2.2⟩

/-- Witness for C4: the default weights construct successfully and the
resulting calculator is exactly the record of those weights. -/
theorem spec_C4_witness :
    ShockIndexCalculator.make (35/100) (25/100) (20/100) (20/100) =
      .ok ⟨35/100, 25/100, 20/100, 20/100⟩ ∧
    (⟨35/100, 25/100, 20/100, 20/100⟩ : ShockIndexCalculator) =
      ⟨35/100, 25/100, 20/100, 20/100⟩ := by
  have hmake : ShockIndexCalculator.make (35/100) (25/100) (20/100) (20/100) =
      .ok ⟨35/100, 25/100, 20/100, 20/100⟩ :=
    (make_eq_ok_iff _ _ _ _ _).mpr (by norm_num)
  exact ⟨hmake, (spec_C4 _ _ _ _).2 _ hmake⟩

/-- C5: with W the sum of `measure_weight` over all records,
`weighted_shock_index` is exactly 0 when W = 0 and otherwise equals
`sum (shock_index * measure_weight) / W` up to the 4-decimal rounding
(error at most 1/20000); in particular, for three records with weights
[1,1,3] it is `(x + y + 3z)/5` within that rounding. -/
theorem spec_C5 (scored : List ScoredRecord) :
    ((scored.map (fun r => r.orig.measure_weight)).sum = 0 →
      (ShockIndexCalculator.aggregate_contract scored).weighted_shock_index
        = 0) ∧
    ((scored.map (fun r => r.orig.measure_weight)).sum ≠ 0 →
      |(ShockIndexCalculator.aggregate_contract scored).weighted_shock_index -
        (scored.map (fun r => r.shock_index * r.orig.measure_weight)).sum /
          (scored.map (fun r => r.orig.measure_weight)).sum| ≤ 1/20000) ∧
    (∀ r1 r2 r3 : ScoredRecord,
      r1.orig.measure_weight = 1 → r2.orig.measure_weight = 1 →
      r3.orig.measure_weight = 3 →
      |(ShockIndexCalculator.aggregate_contract
          [r1, r2, r3]).weighted_shock_index -
        (r1.shock_index + r2.shock_index + 3 * r3.shock_index) / 5|
        ≤ 1/20000) := by
  refine ⟨?_, ?_, ?_⟩
  · intro h
    simp only [ShockIndexCalculator.aggregate_contract, h, if_pos]
    exact round4_zero
  · intro h
    simp only [ShockIndexCalculator.aggregate_contract, if_neg h]
    exact round4_sub_abs_le _
  · intro r1 r2 r3 h1 h2 h3
    simp only [ShockIndexCalculator.aggregate_contract, List.map_cons,
      List.map_nil, List.sum_cons, List.sum_nil, h1, h2, h3]
    rw [if_neg (by norm_num)]
    have he : (r1.shock_index * 1 +
        (r2.shock_index * 1 + (r3.shock_index * 3 + 0))) /
        (1 + (1 + (3 + (0:ℚ)))) =
        (r1.shock_index + r2.shock_index + 3 * r3.shock_index) / 5 := by ring
    rw [he]
    exact round4_sub_abs_le _

/-- Witness for C5: the empty collection has total weight 0 and its
weighted index is exactly 0 (also covers the all-zero-weight case). -/
theorem spec_C5_witness :
    ((([] : List ScoredRecord).map (fun r => r.orig.measure_weight)).sum
      = 0) ∧
    (ShockIndexCalculator.aggregate_contract
      ([] : List ScoredRecord)).weighted_shock_index = 0 :=
  ⟨rfl, (spec_C5 []).1 rfl⟩

/-- Counterexample to C6 as stated: on the empty record collection
`aggregate_contract` does not fail with an error — it returns a normal
summary whose `mean_shock_index` and `max_shock_index` are the undefined
(NaN) marker `none`, silently propagated. -/
theorem spec_C6_counterexample :
    ShockIndexCalculator.aggregate_contract ([] : List ScoredRecord) =
      { weighted_shock_index := 0, mean_shock_index := none,
        max_shock_index := none, measure_count := 0, risk_tier := "low" } := by
  simp only [ShockIndexCalculator.aggregate_contract, List.map_nil,
    List.sum_nil, List.length_nil, List.max?_nil, ContractSummary.mk.injEq,
    if_pos rfl, reduceIte]
  refine ⟨round4_zero, by simp, by simp, ?_⟩
  rw [classify_risk_eq]
  norm_num [clip01, min_def, max_def]

/-- C6 (amended): on an empty record collection `aggregate_contract`
does not raise; it returns measure count 0, a weighted shock index of
exactly 0, risk tier "low", and undefined (NaN, modelled `none`) mean
and max shock indices — the NaN is silently propagated. -/
theorem spec_C6_amended :
    (ShockIndexCalculator.aggregate_contract
      ([] : List ScoredRecord)).measure_count = 0 ∧
    (ShockIndexCalculator.aggregate_contract
      ([] : List ScoredRecord)).weighted_shock_index = 0 ∧
    (ShockIndexCalculator.aggregate_contract
      ([] : List ScoredRecord)).mean_shock_index = none ∧
    (ShockIndexCalculator.aggregate_contract
      ([] : List ScoredRecord)).max_shock_index = none ∧
    (ShockIndexCalculator.aggregate_contract
      ([] : List ScoredRecord)).risk_tier = "low" := by
  refine ⟨rfl, ?_, rfl, rfl, ?_⟩
  · simp only [ShockIndexCalculator.aggregate_contract, List.map_nil,
      List.sum_nil, if_pos rfl]
    exact round4_zero
  · simp only [ShockIndexCalculator.aggregate_contract, List.map_nil,
      List.sum_nil, if_pos rfl]
    rw [classify_risk_eq]
    norm_num [clip01, min_def, max_def]

/-- C7: each parameterised normalizer fails if and only if its
denominator parameter is non-positive; for a positive parameter it
succeeds on every input value (out-of-range inputs are clamped, never
rejected). -/
theorem spec_C7 (v bl s ms w mw : ℚ) :
    ((eav_score v bl).isOk = true ↔ 0 < bl) ∧
    ((cpr_score s ms).isOk = true ↔ 0 < ms) ∧
    ((wm_score w mw).isOk = true ↔ 0 < mw) := by
  refine ⟨?_, ?_, ?_⟩
  · rw [eav_score]
    split_ifs with h
    · rw [isOk_error]
      simp only [Bool.false_eq_true, false_iff, not_lt]
      exact h
    · rw [isOk_ok]
      simp only [true_iff]
      exact not_le.mp h
  · rw [cpr_score]
    split_ifs with h
    · rw [isOk_error]
      simp only [Bool.false_eq_true, false_iff, not_lt]
      exact h
    · rw [isOk_ok]
      simp only [true_iff]
      exact not_le.mp h
  · rw [wm_score]
    split_ifs with h
    · rw [isOk_error]
      simp only [Bool.false_eq_true, false_iff, not_lt]
      exact h
    · rw [isOk_ok]
      simp only [true_iff]
      exact not_le.mp h

/-- C8: for every positive baseline b, `eav_score b b = 0.5`,
`eav_score (2b) b = 1` and `eav_score 0 b = 0`, each clamped
independently at the boundary of [0, 1]. -/
theorem spec_C8 (b : ℚ) (hb : 0 < b) :
    eav_score b b = .ok (1/2) ∧ eav_score (2*b) b = .ok 1 ∧
    eav_score 0 b = .ok 0 := by
  have hbne : b ≠ 0 := ne_of_gt hb
  refine ⟨?_, ?_, ?_⟩ <;> rw [eav_score_pos _ _ hb]
  · rw [div_self hbne]
    norm_num [clip01, min_def, max_def]
  · rw [mul_div_assoc, div_self hbne]
    norm_num [clip01, min_def, max_def]
  · rw [zero_div]
    norm_num [clip01, min_def, max_def]

/-- Witness for C8 at baseline 2. -/
theorem spec_C8_witness :
    0 < (2:ℚ) ∧ (eav_score 2 2 = .ok (1/2) ∧ eav_score (2*2) 2 = .ok 1 ∧
      eav_score 0 2 = .ok 0) :=
  ⟨by norm_num, spec_C8 2 (by norm_num)⟩

/-- C9: for positive `max_shift`/`max_weight` (the defaults are 0.5 and
5), `score_dataframe` succeeds on every record collection, returns
exactly as many records as it was given, in input order, and each output
record carries its original row unchanged in `orig` (the `ScoredRecord`
type adds exactly the six derived fields). -/
theorem spec_C9 (c : ShockIndexCalculator) (ms mw : ℚ)
    (hms : 0 < ms) (hmw : 0 < mw) (rows : List MeasureRecord) :
    (c.score_dataframe rows ms mw).isOk = true ∧
    (∀ out, c.score_dataframe rows ms mw = .ok out →
      out.length = rows.length ∧
      ∀ i (h1 : i < out.length) (h2 : i < rows.length),
        (out.get ⟨i, h1⟩).orig = rows.get ⟨i, h2⟩) := by
  rw [score_dataframe_ok c ms mw hms hmw rows]
  refine ⟨isOk_ok _, ?_⟩
  intro out h
  obtain rfl : rows.map (score_row c ms mw) = out := by simpa using h
  refine ⟨List.length_map _ _, ?_⟩
  intro i h1 h2
  simp only [List.get_eq_getElem, List.getElem_map]
  rfl

/-- Witness for C9 at the default parameters on a one-row collection. -/
theorem spec_C9_witness :
    0 < (1:ℚ)/2 ∧ 0 < (5:ℚ) ∧
    ((⟨35/100, 25/100, 20/100, 20/100⟩ : ShockIndexCalculator).score_dataframe
      [⟨1, 1, 1, 0, 3⟩] (1/2) 5).isOk = true :=
  ⟨by norm_num, by norm_num,
   (spec_C9 _ _ _ (by norm_num) (by norm_num) _).1⟩

/-- C10: for every calculator that passed construction-time validation,
`calculate` is monotone non-decreasing in each of its four arguments
separately. -/
theorem spec_C10 (a b g d : ℚ) (c : ShockIndexCalculator)
    (h : ShockIndexCalculator.make a b g d = .ok c) (x y e p w : ℚ)
    (hxy : x ≤ y) :
    c.calculate x e p w ≤ c.calculate y e p w ∧
    c.calculate e x p w ≤ c.calculate e y p w ∧
    c.calculate e p x w ≤ c.calculate e p y w ∧
    c.calculate e p w x ≤ c.calculate e p w y := by
  obtain ⟨ha, hb, hg, hd, -, rfl⟩ := (make_eq_ok_iff a b g d c).mp h
  have hc := clip01_mono hxy
  refine ⟨?_, ?_, ?_, ?_⟩ <;> apply clip01_mono <;>
    simp only [ShockIndexCalculator.calculate]
  · nlinarith [mul_le_mul_of_nonneg_left hc ha]
  · nlinarith [mul_le_mul_of_nonneg_left hc hb]
  · nlinarith [mul_le_mul_of_nonneg_left hc hg]
  · nlinarith [mul_le_mul_of_nonneg_left hc hd]

/-- Witness for C10: the default calculator never decreases when the CCS
input rises from 0 to 1. -/
theorem spec_C10_witness :
    ShockIndexCalculator.make (35/100) (25/100) (20/100) (20/100) =
      .ok ⟨35/100, 25/100, 20/100, 20/100⟩ ∧ (0:ℚ) ≤ 1 ∧
    (⟨35/100, 25/100, 20/100, 20/100⟩ : ShockIndexCalculator).calculate
        0 (1/2) (1/2) (1/2) ≤
      (⟨35/100, 25/100, 20/100, 20/100⟩ : ShockIndexCalculator).calculate
        1 (1/2) (1/2) (1/2) := by
  have hmake : ShockIndexCalculator.make (35/100) (25/100) (20/100) (20/100) =
      .ok ⟨35/100, 25/100, 20/100, 20/100⟩ :=
    (make_eq_ok_iff _ _ _ _ _).mpr (by norm_num)
  exact ⟨hmake, by norm_num,
    (spec_C10 _ _ _ _ _ hmake 0 1 (1/2) (1/2) (1/2) (by norm_num)).1⟩

end EcdsShockIndex
